import Mathlib

/-!
# A verification development for `arcgis_service_manager.py`

This file gives a shallow embedding of the core logic of
`ArcGISServerManager` (service enumeration, the three workflows
`save_services_state`, `stop_all_except_one`, `restore_services_state`,
and the read-modify-write cycle `update_service_instances`), and proves
or refutes the specified properties about that embedding.

Modelling conventions:

* The remote server is an oracle (`Server`): folder listings, per-service
  configuration documents, and the success/failure of edit/start/stop
  POSTs are fields of the oracle.  A `none` response models a failed
  request (transport error or an `error` payload), which the Python
  helper `_make_request` collapses to `None`.
* JSON configuration documents are association lists with unique keys
  (`ConfigRecord`), mirroring Python dicts; `dget`/`dset`/`dpop` mirror
  `d.get`, `d[k] = v` and `d.pop(k, None)`.
* The CSV layer is modelled at the level of rows of fields
  (`List String`); the comma/quote framing performed by Python's `csv`
  module (an external library) is outside the embedding.  A file is a
  header row followed by data rows, exactly as `csv.DictWriter` /
  `csv.DictReader` present it.
* Python's `str(int)` and `int(str)` are modelled by `intToDecString`
  and `pythonInt?` (optional sign followed by decimal digits; the exotic
  inputs Python additionally accepts, such as surrounding whitespace or
  underscore separators, do not occur in any statement below).
* Workflows return, besides their boolean result, the list of mutating
  REST calls they issued (`Action`), in order; success of each issued
  call is read from the oracle exactly where the Python code reads it.
-/

namespace ArcgisServiceManager

/-- A JSON scalar value as it appears in a service configuration
document.  (Nested objects never influence the logic under study: the
code only reads, overwrites or removes top-level keys, so one opaque
constructor per relevant shape suffices; `str`/`int`/`bool`/`null` cover
every value the theorems below touch.) -/
inductive JVal
  | str (s : String)
  | int (n : Int)
  | bool (b : Bool)
  | null
deriving DecidableEq, Repr

/-- A service configuration document (a Python dict with string keys),
modelled as an association list with (by convention) unique keys. -/
abbrev ConfigRecord := List (String × JVal)

/-- Association-list lookup keyed by strings (Python dict read). -/
def alookup {A : Type} : List (String × A) → String → Option A
  | [], _ => none
  | (k', v') :: rest, k => if k' = k then some v' else alookup rest k

/-- `d.get(k)` / `d[k]` read access on a dict. -/
def dget (d : ConfigRecord) (k : String) : Option JVal :=
  alookup d k

/-- `d[k] = v` on a dict: replace in place if the key exists (keeping
its position), else append. -/
def dset : ConfigRecord → String → JVal → ConfigRecord
  | [], k, v => [(k, v)]
  | (k', v') :: rest, k, v =>
      if k' = k then (k, v) :: rest else (k', v') :: dset rest k v

/-- `d.pop(k, None)` on a dict: remove the key if present. -/
def dpop : ConfigRecord → String → ConfigRecord
  | [], _ => []
  | (k', v') :: rest, k =>
      if k' = k then dpop rest k else (k', v') :: dpop rest k

/-- The identity of a service: folder (empty string = root folder),
service name and service type, as assembled by `get_services`. -/
structure ServiceIdentity where
  folder : String
  name : String
  type : String
deriving DecidableEq, Repr

/-- One entry of a folder listing response: the `serviceName` and `type`
fields the code reads from each element of `result['services']`. -/
structure ServiceEntry where
  serviceName : String
  type : String
deriving DecidableEq, Repr

/-- A folder listing response (the JSON document returned by the
`services` or `services/{folder}` endpoint), reduced to the two keys the
code reads.  `services = none` models a response without a `'services'`
key, `folders = none` one without a `'folders'` key. -/
structure FolderListing where
  services : Option (List ServiceEntry)
  folders : Option (List String)
deriving DecidableEq, Repr

/-- The remote-server oracle.  `root`/`sub` model the listing endpoints
(`none` = request failed), `details` models the service detail endpoint,
and `editOk`/`startOk`/`stopOk` give the server's reported status for
the edit/start/stop POSTs the workflows issue. -/
structure Server where
  root : Option FolderListing
  sub : String → Option FolderListing
  details : ServiceIdentity → Option ConfigRecord
  editOk : ServiceIdentity → ConfigRecord → Bool
  startOk : ServiceIdentity → Bool
  stopOk : ServiceIdentity → Bool

/-- `self.excluded_folders = {'Hosted', 'System', 'Utilities'}`; only
membership is ever used, so a list models the set. -/
def excluded_folders : List String := ["Hosted", "System", "Utilities"]

/-! ## Decimal strings: the model of Python `str(int)` and `int(str)` -/

/-- Numeric value of a decimal digit character. -/
def digitVal (c : Char) : Nat := c.toNat - '0'.toNat

/-- Whether a character is a decimal digit `'0'`-`'9'`. -/
def isDigitChar (c : Char) : Bool := decide ('0' ≤ c) && decide (c ≤ '9')

/-- Decimal digit characters of a natural number, most significant
first (fuel-based so that it is structurally recursive; `natDecDigits`
supplies sufficient fuel). -/
def natDecDigitsAux : Nat → Nat → List Char
  | 0, _ => []
  | fuel+1, n =>
      if n < 10 then [Nat.digitChar n]
      else natDecDigitsAux fuel (n / 10) ++ [Nat.digitChar (n % 10)]

/-- Decimal digit characters of a natural number, most significant
first. -/
def natDecDigits (n : Nat) : List Char := natDecDigitsAux (n + 1) n

/-- Decimal rendering of a natural number. -/
def natDecString (n : Nat) : String := String.mk (natDecDigits n)

/-- The model of Python `str` on an `int`: decimal digits, with a
leading `-` for negative numbers. -/
def intToDecString (i : Int) : String :=
  if i < 0 then "-" ++ natDecString i.natAbs else natDecString i.toNat

/-- Value of a list of characters read as decimal digits; `none` as soon
as a non-digit appears, and `none` for the empty list. -/
def decDigitsVal? (cs : List Char) : Option Nat :=
  if cs.isEmpty then none
  else cs.foldl
    (fun acc c => acc.bind fun a =>
      if isDigitChar c then some (a * 10 + digitVal c) else none)
    (some 0)

/-- The model of Python `int` on a string: an optional sign followed by
at least one decimal digit; everything else raises `ValueError`,
modelled as `none`. -/
def pythonInt? (s : String) : Option Int :=
  match s.data with
  | [] => none
  | c :: cs =>
      if c = '-' then (decDigitsVal? cs).map (fun n => -(n : Int))
      else if c = '+' then (decDigitsVal? cs).map (fun n => (n : Int))
      else (decDigitsVal? (c :: cs)).map (fun n => (n : Int))

/-- The model of Python `str.upper()` (all strings involved are ASCII,
where `Char.toUpper` agrees with Python). -/
def asciiUpper (s : String) : String := String.mk (s.data.map Char.toUpper)

/-- The model of Python `str()` applied by the `csv` writer to a cell
value: strings verbatim, integers in decimal, booleans as
`True`/`False`, `None` as the empty string. -/
def jstr : JVal → String
  | .str s => s
  | .int n => intToDecString n
  | .bool b => if b then "True" else "False"
  | .null => ""

/-! ## Service enumeration (`ArcGISServerManager.get_services`) -/

/-- Tag a listed service entry with the folder it was found in (the
dict literal appended at source lines 131-135 and 143-147). -/
def tagWith (f : String) (e : ServiceEntry) : ServiceIdentity :=
  ⟨f, e.serviceName, e.type⟩

/-- `get_services` (source lines 118-149): list the root folder, then,
for every folder name the root response reports, list that folder,
tagging each service with its folder.  Appending mirrors the Python
`services.append(...)` accumulation; a failed request or a response
without a `'services'` key contributes nothing. -/
def get_services (sv : Server) : List ServiceIdentity :=
  let services : List ServiceIdentity :=
    match sv.root with
    | some fl =>
        match fl.services with
        | some ss => ss.map (tagWith "")
        | none => []
    | none => []
  match sv.root with
  | some fl =>
      match fl.folders with
      | some fs =>
          fs.foldl
            (fun acc f =>
              match sv.sub f with
              | some fl2 =>
                  match fl2.services with
                  | some ss => acc ++ ss.map (tagWith f)
                  | none => acc
              | none => acc)
            services
      | none => services
  | none => services

/-- The root-folder services of a server, tagged with the empty folder
(the projection `get_services` is proved to start with). -/
def rootServicesOf (sv : Server) : List ServiceIdentity :=
  match sv.root with
  | some fl =>
      match fl.services with
      | some ss => ss.map (tagWith "")
      | none => []
  | none => []

/-- The child-folder names the root response reports. -/
def foldersOf (sv : Server) : List String :=
  match sv.root with
  | some fl => fl.folders.getD []
  | none => []

/-- The services of one child folder, tagged with that folder. -/
def folderServicesOf (sv : Server) (f : String) : List ServiceIdentity :=
  match sv.sub f with
  | some fl2 =>
      match fl2.services with
      | some ss => ss.map (tagWith f)
      | none => []
  | none => []

/-- A server whose child-folder listing responses have their `folders`
key removed: `get_services` never reading it is the formal sense in
which enumeration descends at most one level. -/
def stripSubFolders (sv : Server) : Server :=
  { sv with sub := fun f => (sv.sub f).map (fun l => { l with folders := none }) }

/-- A server with the mutation/detail oracles replaced and the listing
oracles kept: used to state that per-service failures are soft. -/
def setOracles (sv : Server) (dt : ServiceIdentity → Option ConfigRecord)
    (ed : ServiceIdentity → ConfigRecord → Bool)
    (st sp : ServiceIdentity → Bool) : Server :=
  { sv with details := dt, editOk := ed, startOk := st, stopOk := sp }

/-! ## The read-modify-write cycle (`update_service_instances`) -/

/-- `readonly_props` (source line 215). -/
def readonly_props : List String :=
  ["status", "configuredState", "realTimeState", "extensions"]

/-- The edit payload built by `update_service_instances` (source lines
210-217) from a fetched configuration document: overwrite
`minInstancesPerNode` / `maxInstancesPerNode`, then strip the four
read-only properties. -/
def buildEditPayload (d : ConfigRecord) (minInstances maxInstances : Int) : ConfigRecord :=
  readonly_props.foldl dpop
    (dset (dset d "minInstancesPerNode" (.int minInstances))
      "maxInstancesPerNode" (.int maxInstances))

/-- A mutating REST call issued by a workflow: the edit POST with its
payload, or a start/stop POST. -/
inductive Action
  | edit (id : ServiceIdentity) (payload : ConfigRecord)
  | start (id : ServiceIdentity)
  | stop (id : ServiceIdentity)
deriving DecidableEq, Repr

/-- The identity a mutating call targets. -/
def Action.target : Action → ServiceIdentity
  | .edit id _ => id
  | .start id => id
  | .stop id => id

/-- `update_service_instances` (source lines 190-229): GET the current
configuration document; on failure return `false` without issuing the
edit POST; otherwise POST the built payload and report the server's
status.  The second component is the list of mutating calls issued. -/
def update_service_instances (sv : Server) (id : ServiceIdentity)
    (minInstances maxInstances : Int) : Bool × List Action :=
  match sv.details id with
  | none => (false, [])
  | some d =>
      let payload := buildEditPayload d minInstances maxInstances
      (sv.editOk id payload, [.edit id payload])

/-! ## The snapshot rows (`save_services_state` and the CSV layer) -/

/-- A CSV row: the list of cell strings, in column order. -/
abbrev CsvRow := List String

/-- `fieldnames` (source lines 251-252): the header row / column order
of a snapshot file. -/
def fieldNames : List String :=
  ["folder", "service_name", "service_type", "configured_state",
   "min_instances", "max_instances"]

/-- The row `save_services_state` writes for one service (source lines
267-274): identity fields verbatim, `configuredState` defaulted to
`STOPPED`, both instance bounds defaulted to `1` when absent, each cell
rendered by the csv writer's `str()`. -/
def saveRow (s : ServiceIdentity) (d : ConfigRecord) : CsvRow :=
  [s.folder, s.name, s.type,
   jstr ((dget d "configuredState").getD (.str "STOPPED")),
   jstr ((dget d "minInstancesPerNode").getD (.int 1)),
   jstr ((dget d "maxInstancesPerNode").getD (.int 1))]

/-- The body of the `save_services_state` loop (source lines 256-275):
skip excluded folders (counting them), fetch details, write a row when
the fetch succeeds and nothing otherwise. -/
def saveLoop (sv : Server) : List ServiceIdentity → Nat → List CsvRow → Nat × List CsvRow
  | [], skipped, rows => (skipped, rows)
  | s :: rest, skipped, rows =>
      if s.folder ∈ excluded_folders then saveLoop sv rest (skipped + 1) rows
      else
        match sv.details s with
        | some d => saveLoop sv rest skipped (rows ++ [saveRow s d])
        | none => saveLoop sv rest skipped rows

/-- `save_services_state` (source lines 231-282): enumerate; an empty
enumeration is reported as failure; otherwise write the header and one
row per non-excluded service whose detail fetch succeeded, and report
success.  (The file system is outside the embedding: the written rows
are returned; the file-open failure branch is not modelled.) -/
def save_services_state (sv : Server) : Bool × List CsvRow :=
  let services := get_services sv
  if services.isEmpty then (false, [])
  else (true, (saveLoop sv services 0 []).2)

/-! ## `stop_all_except_one` -/

/-- The result of `stop_all_except_one`: the returned boolean, the
mutating calls issued in order, and the printed report lines. -/
structure StopResult where
  ok : Bool
  acts : List Action
  log : List String
deriving DecidableEq, Repr

/-- `service_path` as formatted by the workflows (source line 307): the
folder-qualified name, without folder segment for root services. -/
def servicePath (s : ServiceIdentity) : String :=
  if s.folder = "" then s.name ++ "." ++ s.type
  else s.folder ++ "/" ++ s.name ++ "." ++ s.type

/-- One iteration of the `stop_all_except_one` loop (source lines
304-339), threading `(kept_service_found, actions, log)`. -/
def stopStep (sv : Server) (keep_service : String)
    (acc : Bool × List Action × List String) (s : ServiceIdentity) :
    Bool × List Action × List String :=
  let (found, acts, log) := acc
  if s.folder ∈ excluded_folders then
    (found, acts, log ++ ["Skipping excluded service: " ++ servicePath s])
  else if s.name = keep_service then
    let (uok, uacts) := update_service_instances sv s 1 1
    let ulog :=
      if uok then "Updated instances to 1/1 for " ++ servicePath s
      else "Failed to update instances for " ++ servicePath s
    let slog :=
      if sv.startOk s then "Started service: " ++ servicePath s
      else "Failed to start service: " ++ servicePath s
    (true,
     acts ++ uacts ++ [.start s],
     log ++ ["Keeping service running: " ++ servicePath s, ulog, slog])
  else
    let slog :=
      if sv.stopOk s then "Stopped service: " ++ servicePath s
      else "Failed to stop service: " ++ servicePath s
    (found, acts ++ [.stop s], log ++ [slog])

/-- `stop_all_except_one` (source lines 284-346): fail when enumeration
yields nothing; otherwise one pass over all services — skip excluded
folders, give the keeper (matched by name) the 1/1-bounds edit plus a
start, stop everything else — and fail exactly when the pass never found
the keeper.  Every issued call's success only selects a report line. -/
def stop_all_except_one (sv : Server) (keep_service : String) : StopResult :=
  let services := get_services sv
  if services.isEmpty then (⟨false, [], []⟩ : StopResult)
  else
    let (found, acts, log) := services.foldl (stopStep sv keep_service) (false, [], [])
    if found then ⟨true, acts, log ++ ["Service shutdown complete"]⟩
    else ⟨false, acts, log ++ ["Warning: Service " ++ keep_service ++ " not found!"]⟩

/-! ## Snapshot decoding (`csv.DictReader` + the `int()` coercions of
`restore_services_state`) and the restore workflow -/

/-- A row-level decoding failure inside `restore_services_state`
(source lines 367-372): reading a column absent from the header raises
`KeyError`; `int()` on a non-integer cell raises `ValueError`, and on
the `None` a short row produces for a trailing column, `TypeError`. -/
inductive RowError
  | missingColumn (k : String)
  | badValue (k : String) (v : Option String)
deriving DecidableEq, Repr

/-- Reading a string-typed column of a `csv.DictReader` row:
`row[k]` raises `KeyError` when the header lacks the column; otherwise
it is the positionally matching cell.  (A row shorter than the header
makes the cell Python `None`; for a string-typed column the code would
carry that `None` along — rendered here as `""`, a case no statement
below exercises, since encoded rows always have full length.) -/
def rowStr (header row : List String) (k : String) : Except RowError String :=
  if k ∈ header then .ok ((alookup (header.zip row) k).getD "")
  else .error (.missingColumn k)

/-- Reading an integer-typed column: `int(row[k])` — `KeyError` when the
header lacks the column, `TypeError` on the `None` of a short row,
`ValueError` on a non-integer cell. -/
def rowInt (header row : List String) (k : String) : Except RowError Int :=
  if k ∈ header then
    match alookup (header.zip row) k with
    | none => .error (.badValue k none)
    | some s =>
        match pythonInt? s with
        | some n => .ok n
        | none => .error (.badValue k (some s))
  else .error (.missingColumn k)

/-- The persisted projection of one service: the six snapshot columns,
with the instance bounds as integers (the shape
`restore_services_state` reconstructs at source lines 367-372). -/
structure SnapshotRecord where
  folder : String
  service_name : String
  service_type : String
  configured_state : String
  min_instances : Int
  max_instances : Int
deriving DecidableEq, Repr

/-- Decoding one data row against the header, in source order (folder,
service_name, service_type, configured_state, then the two `int()`
coercions); the first failure aborts the row. -/
def parseSnapshotRow (header row : List String) : Except RowError SnapshotRecord := do
  let folder ← rowStr header row "folder"
  let service_name ← rowStr header row "service_name"
  let service_type ← rowStr header row "service_type"
  let configured_state ← rowStr header row "configured_state"
  let min_instances ← rowInt header row "min_instances"
  let max_instances ← rowInt header row "max_instances"
  return ⟨folder, service_name, service_type, configured_state, min_instances, max_instances⟩

/-- The row written for a `SnapshotRecord` (the `csv.DictWriter` cell
order of source lines 267-274, integers rendered by `str()`). -/
def recordToRow (r : SnapshotRecord) : CsvRow :=
  [r.folder, r.service_name, r.service_type, r.configured_state,
   intToDecString r.min_instances, intToDecString r.max_instances]

/-- Encoding a snapshot: the header row, then one row per record. -/
def encodeSnapshot (rs : List SnapshotRecord) : List CsvRow :=
  fieldNames :: rs.map recordToRow

/-- Decoding a snapshot file: the first row is the header
(`csv.DictReader`), every further row is decoded against it; an empty
file yields no rows. -/
def decodeSnapshot (contents : List CsvRow) : List (Except RowError SnapshotRecord) :=
  match contents with
  | [] => []
  | header :: rows => rows.map (parseSnapshotRow header)

/-- The result of `restore_services_state`: the returned boolean, the
mutating calls issued in order, and the two counters the summary line
reports. -/
structure RestoreResult where
  ok : Bool
  acts : List Action
  restored : Nat
  skipped : Nat
deriving DecidableEq, Repr

/-- The `restore_services_state` row loop (source lines 366-403).  A row
whose decoding raises is NOT handled per-row: the exception propagates
to the function-level `except` handler, so the loop stops there and the
workflow returns `False` — rows already handled keep their issued calls.
A decoded row is skipped when its folder is excluded; otherwise the
instance bounds are updated (a failed update skips the row's start/stop
via `continue`), then the service is started when `configured_state`
upper-cases to `STARTED` and stopped otherwise, counting reported
successes. -/
def restoreLoop (sv : Server) (header : List String) :
    List CsvRow → List Action → Nat → Nat → RestoreResult
  | [], acts, restored, skipped => ⟨true, acts, restored, skipped⟩
  | row :: rest, acts, restored, skipped =>
      match parseSnapshotRow header row with
      | .error _ => ⟨false, acts, restored, skipped⟩
      | .ok r =>
          if r.folder ∈ excluded_folders then
            restoreLoop sv header rest acts restored (skipped + 1)
          else
            let id : ServiceIdentity := ⟨r.folder, r.service_name, r.service_type⟩
            let (uok, uacts) :=
              update_service_instances sv id r.min_instances r.max_instances
            if uok then
              if asciiUpper r.configured_state = "STARTED" then
                restoreLoop sv header rest (acts ++ uacts ++ [.start id])
                  (if sv.startOk id then restored + 1 else restored) skipped
              else
                restoreLoop sv header rest (acts ++ uacts ++ [.stop id])
                  (if sv.stopOk id then restored + 1 else restored) skipped
            else
              restoreLoop sv header rest (acts ++ uacts) restored skipped

/-- `restore_services_state` (source lines 348-415) on the rows of the
snapshot file: the first row is the `DictReader` header; an empty file
has no rows and succeeds vacuously.  (The `FileNotFoundError` branch is
outside the embedding: the file's rows are the input.) -/
def restore_services_state (sv : Server) (contents : List CsvRow) : RestoreResult :=
  match contents with
  | [] => ⟨true, [], 0, 0⟩
  | header :: rows => restoreLoop sv header rows [] 0 0

/-! ## Concrete fixtures (used by counterexamples and witnesses) -/

/-- The configuration document of the example service
root/`Parcels.MapServer` (STARTED, 2, 4), with server-managed fields
alongside. -/
def parcelsDoc : ConfigRecord :=
  [("serviceName", .str "Parcels"), ("type", .str "MapServer"),
   ("configuredState", .str "STARTED"),
   ("minInstancesPerNode", .int 2), ("maxInstancesPerNode", .int 4),
   ("status", .str "STARTED"), ("realTimeState", .str "STARTED")]

/-- The configuration document of the example hosted service
`Hosted/X.FeatureServer`. -/
def hostedXDoc : ConfigRecord :=
  [("serviceName", .str "X"), ("type", .str "FeatureServer"),
   ("configuredState", .str "STARTED"),
   ("minInstancesPerNode", .int 1), ("maxInstancesPerNode", .int 2)]

/-- The example server of the specification: root/`Parcels.MapServer`
(STARTED, 2, 4) and `Hosted/X.FeatureServer`; every request succeeds. -/
def svExample : Server where
  root := some ⟨some [⟨"Parcels", "MapServer"⟩], some ["Hosted"]⟩
  sub := fun f => if f = "Hosted" then some ⟨some [⟨"X", "FeatureServer"⟩], none⟩ else none
  details := fun id =>
    if id = ⟨"", "Parcels", "MapServer"⟩ then some parcelsDoc
    else if id = ⟨"Hosted", "X", "FeatureServer"⟩ then some hostedXDoc
    else none
  editOk := fun _ _ => true
  startOk := fun _ => true
  stopOk := fun _ => true

/-- A server whose only service sits in the excluded `Hosted` folder and
is named `K`; every request succeeds. -/
def svKeeperHosted : Server where
  root := some ⟨some [], some ["Hosted"]⟩
  sub := fun f => if f = "Hosted" then some ⟨some [⟨"K", "MapServer"⟩], none⟩ else none
  details := fun _ => some [("configuredState", .str "STARTED")]
  editOk := fun _ _ => true
  startOk := fun _ => true
  stopOk := fun _ => true

/-- A server with root services `A.MapServer` and `B.MapServer`; detail
fetches succeed for `A` and fail for `B`; every POST succeeds. -/
def svDetailBFails : Server where
  root := some ⟨some [⟨"A", "MapServer"⟩, ⟨"B", "MapServer"⟩], some []⟩
  sub := fun _ => none
  details := fun id =>
    if id = ⟨"", "A", "MapServer"⟩ then
      some [("configuredState", .str "STARTED"),
            ("minInstancesPerNode", .int 1), ("maxInstancesPerNode", .int 3)]
    else none
  editOk := fun _ _ => true
  startOk := fun _ => true
  stopOk := fun _ => true

/-- A snapshot data row whose `min_instances` cell is not an integer. -/
def malformedRow : CsvRow := ["", "A", "MapServer", "STARTED", "two", "3"]

/-- A well-formed snapshot data row for root service `B.MapServer`. -/
def goodRowB : CsvRow := ["", "B", "MapServer", "STARTED", "1", "2"]

/-- A well-formed snapshot data row naming the excluded service
`Hosted/X.FeatureServer` explicitly. -/
def hostedRow : CsvRow := ["Hosted", "X", "FeatureServer", "STARTED", "1", "2"]

/-! ## Dictionary lemmas -/

theorem alookup_zip_cons {A : Type} (k k0 : String) (v0 : A) (rest : List (String × A)) :
    alookup ((k0, v0) :: rest) k = if k0 = k then some v0 else alookup rest k := rfl

theorem dget_dset_self (d : ConfigRecord) (k : String) (v : JVal) :
    dget (dset d k v) k = some v := by
  induction d with
  | nil => simp [dget, dset, alookup]
  | cons p rest ih =>
      obtain ⟨k0, v0⟩ := p
      by_cases h : k0 = k
      · simp [dget, dset, if_pos h, alookup]
      · simp only [dset, if_neg h, dget, alookup, ih]
        exact ih

theorem dget_dset_ne (d : ConfigRecord) (k k' : String) (v : JVal) (h : k' ≠ k) :
    dget (dset d k v) k' = dget d k' := by
  induction d with
  | nil => simp [dget, dset, alookup, Ne.symm h]
  | cons p rest ih =>
      obtain ⟨k0, v0⟩ := p
      by_cases h0 : k0 = k
      · subst h0
        simp [dget, dset, alookup, Ne.symm h]
      · by_cases h1 : k0 = k'
        · subst h1
          simp [dget, dset, alookup, h]
        · simpa [dget, dset, if_neg h0, alookup, h1] using ih

theorem dget_dpop_self (d : ConfigRecord) (k : String) :
    dget (dpop d k) k = none := by
  induction d with
  | nil => simp [dget, dpop, alookup]
  | cons p rest ih =>
      obtain ⟨k0, v0⟩ := p
      by_cases h0 : k0 = k
      · simpa [dpop, if_pos h0] using ih
      · simpa [dget, dpop, if_neg h0, alookup, h0] using ih

theorem dget_dpop_ne (d : ConfigRecord) (k k' : String) (h : k' ≠ k) :
    dget (dpop d k) k' = dget d k' := by
  induction d with
  | nil => simp [dpop]
  | cons p rest ih =>
      obtain ⟨k0, v0⟩ := p
      by_cases h0 : k0 = k
      · subst h0
        simpa [dget, dpop, alookup, Ne.symm h] using ih
      · by_cases h1 : k0 = k'
        · subst h1
          simp [dget, dpop, alookup, h]
        · simpa [dget, dpop, if_neg h0, alookup, h1] using ih

/-! ## Decimal round-trip lemmas -/

theorem digitChar_spec (n : Nat) (h : n < 10) :
    isDigitChar (Nat.digitChar n) = true ∧ digitVal (Nat.digitChar n) = n := by
  interval_cases n <;> exact ⟨by decide, by decide⟩

/-- The single folding step of `decDigitsVal?`. -/
def decDigitStep (acc : Option Nat) (c : Char) : Option Nat :=
  acc.bind fun a => if isDigitChar c then some (a * 10 + digitVal c) else none

theorem decDigitStep_some (a : Nat) (c : Char) :
    decDigitStep (some a) c =
      if isDigitChar c then some (a * 10 + digitVal c) else none := rfl

theorem decDigitsVal?_eq_foldl (cs : List Char) (h : ¬ cs.isEmpty) :
    decDigitsVal? cs = cs.foldl decDigitStep (some 0) := by
  simp only [decDigitsVal?, if_neg h]
  rfl

theorem natDecDigitsAux_ne_nil (fuel n : Nat) (h : n < fuel) :
    natDecDigitsAux fuel n ≠ [] := by
  induction fuel generalizing n with
  | zero => omega
  | succ f ih =>
      by_cases h10 : n < 10
      · simp [natDecDigitsAux, if_pos h10]
      · simp [natDecDigitsAux, if_neg h10]

theorem natDecDigitsAux_digits (fuel n : Nat) (h : n < fuel) :
    ∀ c ∈ natDecDigitsAux fuel n, isDigitChar c = true := by
  induction fuel generalizing n with
  | zero => omega
  | succ f ih =>
      by_cases h10 : n < 10
      · simp only [natDecDigitsAux, if_pos h10, List.mem_singleton]
        rintro c rfl
        exact (digitChar_spec n h10).1
      · simp only [natDecDigitsAux, if_neg h10, List.mem_append, List.mem_singleton]
        have hdiv : n / 10 < f := by
          have h1 : n / 10 < n := Nat.div_lt_self (by omega) (by omega)
          omega
        rintro c (hc | rfl)
        · exact ih (n / 10) hdiv c hc
        · exact (digitChar_spec (n % 10) (Nat.mod_lt n (by omega))).1

theorem natDecDigitsAux_foldl (fuel n : Nat) (h : n < fuel) (a : Nat) :
    (natDecDigitsAux fuel n).foldl decDigitStep (some a) =
      some (a * 10 ^ (natDecDigitsAux fuel n).length + n) := by
  induction fuel generalizing n a with
  | zero => omega
  | succ f ih =>
      by_cases h10 : n < 10
      · obtain ⟨hd, hv⟩ := digitChar_spec n h10
        simp [natDecDigitsAux, if_pos h10, decDigitStep_some, hd, hv, Nat.mul_comm]
      · have hdiv : n / 10 < f := by
          have h1 : n / 10 < n := Nat.div_lt_self (by omega) (by omega)
          omega
        obtain ⟨hd, hv⟩ := digitChar_spec (n % 10) (Nat.mod_lt n (by omega))
        have key : (a * 10 ^ (natDecDigitsAux f (n / 10)).length + n / 10) * 10 + n % 10 =
            a * 10 ^ ((natDecDigitsAux f (n / 10)).length + 1) + n := by
          calc (a * 10 ^ (natDecDigitsAux f (n / 10)).length + n / 10) * 10 + n % 10 =
              a * (10 ^ (natDecDigitsAux f (n / 10)).length * 10) + (10 * (n / 10) + n % 10) := by
                ring
            _ = a * 10 ^ ((natDecDigitsAux f (n / 10)).length + 1) + n := by
                rw [Nat.div_add_mod, ← pow_succ]
        simp only [natDecDigitsAux, if_neg h10, List.foldl_append, ih (n / 10) hdiv,
          List.foldl_cons, List.foldl_nil, decDigitStep_some, hd, if_true,
          List.length_append, List.length_cons, List.length_nil, hv, key]

theorem decDigitsVal?_natDecDigits (n : Nat) :
    decDigitsVal? (natDecDigits n) = some n := by
  have hne : natDecDigits n ≠ [] := natDecDigitsAux_ne_nil (n + 1) n (Nat.lt_succ_self n)
  rw [decDigitsVal?_eq_foldl _ (by simpa [List.isEmpty_iff] using hne)]
  simpa using natDecDigitsAux_foldl (n + 1) n (Nat.lt_succ_self n) 0

theorem pythonInt?_natDecString (n : Nat) :
    pythonInt? (natDecString n) = some (n : Int) := by
  have hne : natDecDigits n ≠ [] := natDecDigitsAux_ne_nil (n + 1) n (Nat.lt_succ_self n)
  have hdig : ∀ c ∈ natDecDigits n, isDigitChar c = true :=
    natDecDigitsAux_digits (n + 1) n (Nat.lt_succ_self n)
  obtain ⟨c, cs, hcs⟩ := List.exists_cons_of_ne_nil hne
  have hc : isDigitChar c = true := hdig c (by rw [hcs]; exact List.mem_cons_self c cs)
  have hcm : ¬ c = '-' := by
    intro hdash
    rw [hdash] at hc
    exact absurd hc (by decide)
  have hcp : ¬ c = '+' := by
    intro hplus
    rw [hplus] at hc
    exact absurd hc (by decide)
  have hdata : (natDecString n).data = c :: cs := by
    simpa [natDecString] using hcs
  have hval : decDigitsVal? (c :: cs) = some n := by
    rw [← hcs]
    exact decDigitsVal?_natDecDigits n
  simp [pythonInt?, hdata, hcm, hcp, hval]

theorem pythonInt?_intToDecString (i : Int) (h : 0 ≤ i) :
    pythonInt? (intToDecString i) = some i := by
  rw [intToDecString, if_neg (by omega)]
  rw [pythonInt?_natDecString]
  congr 1
  omega

/-! ## Row codec lemmas -/

theorem rowStr_recordToRow_folder (r : SnapshotRecord) :
    rowStr fieldNames (recordToRow r) "folder" = .ok r.folder := rfl

theorem rowInt_recordToRow_min (r : SnapshotRecord) (h : 0 ≤ r.min_instances) :
    rowInt fieldNames (recordToRow r) "min_instances" = .ok r.min_instances := by
  have hred : rowInt fieldNames (recordToRow r) "min_instances" =
      (match pythonInt? (intToDecString r.min_instances) with
       | some n => Except.ok n
       | none =>
           Except.error (.badValue "min_instances" (some (intToDecString r.min_instances)))) := rfl
  rw [hred, pythonInt?_intToDecString _ h]

theorem rowInt_recordToRow_max (r : SnapshotRecord) (h : 0 ≤ r.max_instances) :
    rowInt fieldNames (recordToRow r) "max_instances" = .ok r.max_instances := by
  have hred : rowInt fieldNames (recordToRow r) "max_instances" =
      (match pythonInt? (intToDecString r.max_instances) with
       | some n => Except.ok n
       | none =>
           Except.error (.badValue "max_instances" (some (intToDecString r.max_instances)))) := rfl
  rw [hred, pythonInt?_intToDecString _ h]

theorem parseSnapshotRow_recordToRow (r : SnapshotRecord)
    (hmin : 0 ≤ r.min_instances) (hmax : 0 ≤ r.max_instances) :
    parseSnapshotRow fieldNames (recordToRow r) = .ok r := by
  have hred : parseSnapshotRow fieldNames (recordToRow r) =
      Except.bind (rowInt fieldNames (recordToRow r) "min_instances") (fun mn =>
        Except.bind (rowInt fieldNames (recordToRow r) "max_instances") (fun mx =>
          Except.ok ⟨r.folder, r.service_name, r.service_type, r.configured_state, mn, mx⟩)) := rfl
  rw [hred, rowInt_recordToRow_min r hmin, rowInt_recordToRow_max r hmax]
  rfl

/-! ## Enumeration lemmas -/

theorem foldl_append_flatMap {α β : Type} (g : α → List β) (l : List α) (init : List β) :
    l.foldl (fun acc f => acc ++ g f) init = init ++ l.flatMap g := by
  induction l generalizing init with
  | nil => simp
  | cons x rest ih => simp [ih]

theorem get_services_eq (sv : Server) :
    get_services sv = rootServicesOf sv ++ (foldersOf sv).flatMap (folderServicesOf sv) := by
  cases hr : sv.root with
  | none => simp [get_services, rootServicesOf, foldersOf, hr]
  | some fl =>
      cases hf : fl.folders with
      | none => simp [get_services, rootServicesOf, foldersOf, hr, hf]
      | some fs =>
          have hstep : ∀ (acc : List ServiceIdentity), ∀ f ∈ fs,
              (match sv.sub f with
               | some fl2 =>
                   match fl2.services with
                   | some ss => acc ++ ss.map (tagWith f)
                   | none => acc
               | none => acc) = acc ++ folderServicesOf sv f := by
            intro acc f _
            cases h : sv.sub f with
            | none => simp [folderServicesOf, h]
            | some fl2 =>
                cases hs : fl2.services with
                | none => simp [folderServicesOf, h, hs]
                | some ss => simp [folderServicesOf, h, hs]
          simp only [get_services, rootServicesOf, foldersOf, hr, hf, Option.getD_some]
          rw [List.foldl_ext _ _ _ hstep, foldl_append_flatMap]

theorem get_services_stripSubFolders (sv : Server) :
    get_services (stripSubFolders sv) = get_services sv := by
  have hsub : ∀ f, (stripSubFolders sv).sub f =
      (sv.sub f).map (fun l => { l with folders := none }) := fun _ => rfl
  have hroot : (stripSubFolders sv).root = sv.root := rfl
  rw [get_services_eq, get_services_eq]
  have h1 : rootServicesOf (stripSubFolders sv) = rootServicesOf sv := by
    rw [rootServicesOf, rootServicesOf, hroot]
  have h2 : foldersOf (stripSubFolders sv) = foldersOf sv := by
    rw [foldersOf, foldersOf, hroot]
  have h3 : folderServicesOf (stripSubFolders sv) = folderServicesOf sv := by
    funext f
    rw [folderServicesOf, folderServicesOf, hsub]
    cases h : sv.sub f with
    | none => simp
    | some fl2 =>
        cases hs : fl2.services with
        | none => simp [hs]
        | some ss => simp [hs]
  rw [h1, h2, h3]

/-! ## Save lemmas -/

/-- The contribution of one discovered service to the snapshot: nothing
when its folder is excluded or its detail fetch fails, one projected row
otherwise. -/
def saveProj (sv : Server) (s : ServiceIdentity) : Option CsvRow :=
  if s.folder ∈ excluded_folders then none else (sv.details s).map (saveRow s)

theorem saveLoop_rows (sv : Server) (l : List ServiceIdentity) (k : Nat) (rows : List CsvRow) :
    (saveLoop sv l k rows).2 = rows ++ l.filterMap (saveProj sv) := by
  induction l generalizing k rows with
  | nil => simp [saveLoop]
  | cons s rest ih =>
      by_cases hx : s.folder ∈ excluded_folders
      · simp [saveLoop, if_pos hx, ih, saveProj, List.filterMap_cons]
      · cases hd : sv.details s with
        | none => simp [saveLoop, if_neg hx, hd, ih, saveProj, List.filterMap_cons]
        | some d =>
            simp [saveLoop, if_neg hx, hd, ih, saveProj, List.filterMap_cons]

theorem save_rows_eq (sv : Server) :
    (save_services_state sv).2 = (get_services sv).filterMap (saveProj sv) := by
  by_cases h : (get_services sv).isEmpty
  · have hnil : get_services sv = [] := List.isEmpty_iff.mp h
    simp [save_services_state, h, hnil]
  · simp [save_services_state, h, saveLoop_rows]

theorem save_ok_iff (sv : Server) :
    (save_services_state sv).1 = true ↔ get_services sv ≠ [] := by
  by_cases h : (get_services sv).isEmpty
  · have hnil : get_services sv = [] := List.isEmpty_iff.mp h
    simp [save_services_state, h, hnil]
  · have hne : get_services sv ≠ [] := by
      intro hnil
      rw [hnil] at h
      exact h rfl
    simp [save_services_state, h, hne]

/-! ## `update_service_instances` lemmas -/

theorem update_acts_target (sv : Server) (id : ServiceIdentity) (mn mx : Int) :
    ∀ a ∈ (update_service_instances sv id mn mx).2, a.target = id := by
  cases hd : sv.details id with
  | none => simp [update_service_instances, hd]
  | some d => simp [update_service_instances, hd, Action.target]

/-! ## `stop_all_except_one` fold lemmas -/

theorem stopFold_found_true (sv : Server) (keep : String) (l : List ServiceIdentity)
    (acts : List Action) (log : List String) :
    (l.foldl (stopStep sv keep) (true, acts, log)).1 = true := by
  induction l generalizing acts log with
  | nil => rfl
  | cons s rest ih =>
      by_cases hx : s.folder ∈ excluded_folders
      · simpa [stopStep, hx] using ih _ _
      · by_cases hk : s.name = keep
        · simpa [stopStep, hx, hk] using ih _ _
        · simpa [stopStep, hx, hk] using ih _ _

theorem stopFold_found_iff (sv : Server) (keep : String) (l : List ServiceIdentity)
    (acts : List Action) (log : List String) :
    (l.foldl (stopStep sv keep) (false, acts, log)).1 = true ↔
      ∃ s ∈ l, s.folder ∉ excluded_folders ∧ s.name = keep := by
  induction l generalizing acts log with
  | nil => simp
  | cons s rest ih =>
      by_cases hx : s.folder ∈ excluded_folders
      · simp only [stopStep, if_pos hx, List.foldl_cons]
        rw [ih]
        constructor
        · rintro ⟨t, ht, hprop⟩
          exact ⟨t, List.mem_cons_of_mem s ht, hprop⟩
        · rintro ⟨t, ht, hnx, hk⟩
          rcases List.mem_cons.mp ht with rfl | ht'
          · exact absurd hx hnx
          · exact ⟨t, ht', hnx, hk⟩
      · by_cases hk : s.name = keep
        · simp only [stopStep, if_neg hx, if_pos hk, List.foldl_cons]
          rw [stopFold_found_true]
          constructor
          · intro _
            exact ⟨s, List.mem_cons_self s rest, hx, hk⟩
          · intro _
            rfl
        · simp only [stopStep, if_neg hx, if_pos, if_neg hk, List.foldl_cons]
          rw [ih]
          constructor
          · rintro ⟨t, ht, hprop⟩
            exact ⟨t, List.mem_cons_of_mem s ht, hprop⟩
          · rintro ⟨t, ht, hnx, hkk⟩
            rcases List.mem_cons.mp ht with rfl | ht'
            · exact absurd hkk hk
            · exact ⟨t, ht', hnx, hkk⟩

theorem stopFold_acts_nomatch (sv : Server) (keep : String) (l : List ServiceIdentity)
    (h : ∀ s ∈ l, s.folder ∉ excluded_folders → s.name ≠ keep) :
    ∀ (found : Bool) (acts : List Action) (log : List String),
    (l.foldl (stopStep sv keep) (found, acts, log)).2.1 =
      acts ++ (l.filter (fun s => decide (s.folder ∉ excluded_folders))).map Action.stop := by
  induction l with
  | nil => intro found acts log; simp
  | cons s rest ih =>
      intro found acts log
      have hrest : ∀ t ∈ rest, t.folder ∉ excluded_folders → t.name ≠ keep :=
        fun t ht => h t (List.mem_cons_of_mem s ht)
      by_cases hx : s.folder ∈ excluded_folders
      · have hfilter : (decide (s.folder ∉ excluded_folders)) = false := by
          simpa using hx
        simp only [List.foldl_cons, stopStep, if_pos hx, List.filter_cons, hfilter,
          Bool.false_eq_true, if_false]
        exact ih hrest found acts _
      · have hk : s.name ≠ keep := h s (List.mem_cons_self s rest) hx
        have hfilter : (decide (s.folder ∉ excluded_folders)) = true := by
          simpa using hx
        simp only [List.foldl_cons, stopStep, if_neg hx, if_neg hk, List.filter_cons, hfilter,
          if_true, List.map_cons]
        rw [ih hrest found (acts ++ [Action.stop s]) _]
        simp

theorem stopFold_acts_targets (sv : Server) (keep : String) (l : List ServiceIdentity) :
    ∀ (found : Bool) (acts : List Action) (log : List String),
    (∀ a ∈ acts, a.target.folder ∉ excluded_folders) →
    ∀ a ∈ (l.foldl (stopStep sv keep) (found, acts, log)).2.1,
      a.target.folder ∉ excluded_folders := by
  induction l with
  | nil => intro found acts log hacts; simpa using hacts
  | cons s rest ih =>
      intro found acts log hacts
      by_cases hx : s.folder ∈ excluded_folders
      · simp only [List.foldl_cons, stopStep, if_pos hx]
        exact ih found acts _ hacts
      · by_cases hk : s.name = keep
        · simp only [List.foldl_cons, stopStep, if_neg hx, if_pos hk]
          refine ih true _ _ ?_
          intro a ha
          rcases List.mem_append.mp ha with ha' | ha'
          · rcases List.mem_append.mp ha' with ha'' | ha''
            · exact hacts a ha''
            · rw [update_acts_target sv s 1 1 a ha'']
              exact hx
          · rcases List.mem_singleton.mp ha' with rfl
            exact hx
        · simp only [List.foldl_cons, stopStep, if_neg hx, if_neg hk]
          refine ih found _ _ ?_
          intro a ha
          rcases List.mem_append.mp ha with ha' | ha'
          · exact hacts a ha'
          · rcases List.mem_singleton.mp ha' with rfl
            exact hx

theorem stop_ok_iff (sv : Server) (keep : String) :
    (stop_all_except_one sv keep).ok = true ↔
      ∃ s ∈ get_services sv, s.folder ∉ excluded_folders ∧ s.name = keep := by
  unfold stop_all_except_one
  by_cases h : (get_services sv).isEmpty
  · have hnil := List.isEmpty_iff.mp h
    simp [h, hnil]
  · simp only [if_neg h]
    have hiff := stopFold_found_iff sv keep (get_services sv) [] []
    rcases hf : (get_services sv).foldl (stopStep sv keep) (false, [], []) with ⟨found, acts, log⟩
    rw [hf] at hiff
    cases found
    · simpa using hiff
    · simpa using hiff

theorem bool_eq_of_true_iff {a b : Bool} (h : (a = true) ↔ (b = true)) : a = b := by
  cases a <;> cases b <;> simp_all

theorem get_services_setOracles (sv : Server) (dt : ServiceIdentity → Option ConfigRecord)
    (ed : ServiceIdentity → ConfigRecord → Bool) (st sp : ServiceIdentity → Bool) :
    get_services (setOracles sv dt ed st sp) = get_services sv := rfl

theorem stop_ok_oracle_indep (sv : Server) (dt : ServiceIdentity → Option ConfigRecord)
    (ed : ServiceIdentity → ConfigRecord → Bool) (st sp : ServiceIdentity → Bool)
    (keep : String) :
    (stop_all_except_one (setOracles sv dt ed st sp) keep).ok =
      (stop_all_except_one sv keep).ok := by
  refine bool_eq_of_true_iff ?_
  rw [stop_ok_iff, stop_ok_iff, get_services_setOracles]

/-! ## Restore lemmas -/

theorem restoreLoop_targets (sv : Server) (header : List String) (rows : List CsvRow) :
    ∀ (acts : List Action) (restored skipped : Nat),
    (∀ a ∈ acts, a.target.folder ∉ excluded_folders) →
    ∀ a ∈ (restoreLoop sv header rows acts restored skipped).acts,
      a.target.folder ∉ excluded_folders := by
  induction rows with
  | nil => intro acts restored skipped hacts; simpa [restoreLoop] using hacts
  | cons row rest ih =>
      intro acts restored skipped hacts
      cases hp : parseSnapshotRow header row with
      | error e => simpa [restoreLoop, hp] using hacts
      | ok r =>
          by_cases hx : r.folder ∈ excluded_folders
          · simp only [restoreLoop, hp, if_pos hx]
            exact ih acts restored _ hacts
          · simp only [restoreLoop, hp, if_neg hx]
            rcases hu : update_service_instances sv ⟨r.folder, r.service_name, r.service_type⟩
                r.min_instances r.max_instances with ⟨uok, uacts⟩
            have htar : ∀ a ∈ uacts, a.target.folder ∉ excluded_folders := by
              intro a ha
              have := update_acts_target sv ⟨r.folder, r.service_name, r.service_type⟩
                r.min_instances r.max_instances a (by rw [hu]; exact ha)
              rw [this]
              exact hx
            cases uok
            · simp only [Bool.false_eq_true, if_false]
              refine ih _ restored skipped ?_
              intro a ha
              rcases List.mem_append.mp ha with ha' | ha'
              · exact hacts a ha'
              · exact htar a ha'
            · simp only [if_true]
              by_cases hst : asciiUpper r.configured_state = "STARTED"
              · simp only [if_pos hst]
                refine ih _ _ skipped ?_
                intro a ha
                rcases List.mem_append.mp ha with ha' | ha'
                · rcases List.mem_append.mp ha' with ha'' | ha''
                  · exact hacts a ha''
                  · exact htar a ha''
                · rcases List.mem_singleton.mp ha' with rfl
                  exact hx
              · simp only [if_neg hst]
                refine ih _ _ skipped ?_
                intro a ha
                rcases List.mem_append.mp ha with ha' | ha'
                · rcases List.mem_append.mp ha' with ha'' | ha''
                  · exact hacts a ha''
                  · exact htar a ha''
                · rcases List.mem_singleton.mp ha' with rfl
                  exact hx

theorem restoreLoop_ok (sv : Server) (header : List String) (rows : List CsvRow)
    (hrows : ∀ row ∈ rows, ∃ r, parseSnapshotRow header row = .ok r) :
    ∀ (acts : List Action) (restored skipped : Nat),
    (restoreLoop sv header rows acts restored skipped).ok = true := by
  induction rows with
  | nil => intro acts restored skipped; rfl
  | cons row rest ih =>
      intro acts restored skipped
      obtain ⟨r, hr⟩ := hrows row (List.mem_cons_self row rest)
      have hrest : ∀ row ∈ rest, ∃ r, parseSnapshotRow header row = .ok r :=
        fun row hrow => hrows row (List.mem_cons_of_mem _ hrow)
      simp only [restoreLoop, hr]
      by_cases hx : r.folder ∈ excluded_folders
      · simp only [if_pos hx]
        exact ih hrest acts restored _
      · simp only [if_neg hx]
        rcases hu : update_service_instances sv ⟨r.folder, r.service_name, r.service_type⟩
            r.min_instances r.max_instances with ⟨uok, uacts⟩
        cases uok
        · simp only [Bool.false_eq_true, if_false]
          exact ih hrest _ restored skipped
        · simp only [if_true]
          by_cases hst : asciiUpper r.configured_state = "STARTED"
          · simp only [if_pos hst]
            exact ih hrest _ _ skipped
          · simp only [if_neg hst]
            exact ih hrest _ _ skipped

theorem restoreLoop_append (sv : Server) (header : List String) (pre rest : List CsvRow)
    (hpre : ∀ row ∈ pre, ∃ r, parseSnapshotRow header row = .ok r) :
    ∀ (acts : List Action) (restored skipped : Nat),
    restoreLoop sv header (pre ++ rest) acts restored skipped =
      restoreLoop sv header rest
        (restoreLoop sv header pre acts restored skipped).acts
        (restoreLoop sv header pre acts restored skipped).restored
        (restoreLoop sv header pre acts restored skipped).skipped := by
  induction pre with
  | nil => intro acts restored skipped; rfl
  | cons row pre' ih =>
      intro acts restored skipped
      obtain ⟨r, hr⟩ := hpre row (List.mem_cons_self row pre')
      have hpre' : ∀ row ∈ pre', ∃ r, parseSnapshotRow header row = .ok r :=
        fun row hrow => hpre row (List.mem_cons_of_mem _ hrow)
      simp only [List.cons_append, restoreLoop, hr]
      by_cases hx : r.folder ∈ excluded_folders
      · simp only [if_pos hx]
        exact ih hpre' acts restored _
      · simp only [if_neg hx]
        rcases hu : update_service_instances sv ⟨r.folder, r.service_name, r.service_type⟩
            r.min_instances r.max_instances with ⟨uok, uacts⟩
        cases uok
        · simp only [Bool.false_eq_true, if_false]
          exact ih hpre' _ restored skipped
        · simp only [if_true]
          by_cases hst : asciiUpper r.configured_state = "STARTED"
          · simp only [if_pos hst]
            exact ih hpre' _ _ skipped
          · simp only [if_neg hst]
            exact ih hpre' _ _ skipped

theorem restoreLoop_error_head (sv : Server) (header : List String) (bad : CsvRow)
    (post : List CsvRow) (e : RowError) (hbad : parseSnapshotRow header bad = .error e) :
    ∀ (acts : List Action) (restored skipped : Nat),
    restoreLoop sv header (bad :: post) acts restored skipped =
      ⟨false, acts, restored, skipped⟩ := by
  intro acts restored skipped
  simp only [restoreLoop, hbad]

/-! ## The claims -/

/-- C1, counterexample.  On a snapshot with one malformed row (a
non-integer `min_instances` cell) followed by one well-formed row, the
restore workflow aborts at the malformed row: it returns failure, issues
no mutating call at all, and processes zero of the well-formed rows —
refuting the claim that decoding yields a `RowError` for that row only,
continues, and that restore still processes the N well-formed rows. -/
theorem c1_counterexample :
    parseSnapshotRow fieldNames malformedRow =
      .error (.badValue "min_instances" (some "two")) ∧
    parseSnapshotRow fieldNames goodRowB = .ok ⟨"", "B", "MapServer", "STARTED", 1, 2⟩ ∧
    restore_services_state svDetailBFails [fieldNames, malformedRow, goodRowB] =
      ⟨false, [], 0, 0⟩ :=
  ⟨rfl, rfl, by decide⟩

/-- C1, amended.  A malformed row (one whose decoding raises, e.g. a
non-integer instance count or a missing required column) aborts the
entire restore at that row: the rows before it are processed normally,
the rows after it are not processed at all, and the workflow returns
overall failure. -/
theorem c1_amended (sv : Server) (header : List String) (pre post : List CsvRow)
    (bad : CsvRow) (e : RowError)
    (hpre : ∀ row ∈ pre, ∃ r, parseSnapshotRow header row = .ok r)
    (hbad : parseSnapshotRow header bad = .error e) :
    restore_services_state sv (header :: (pre ++ bad :: post)) =
      { restore_services_state sv (header :: pre) with ok := false } := by
  show restoreLoop sv header (pre ++ bad :: post) [] 0 0 =
    { restoreLoop sv header pre [] 0 0 with ok := false }
  rw [restoreLoop_append sv header pre (bad :: post) hpre,
    restoreLoop_error_head sv header bad post e hbad]

/-- C1, witness for the amended claim: on the concrete snapshot whose
second data row is malformed, restore equals the processing of the first
row alone with the overall result forced to failure. -/
theorem c1_amended_witness :
    restore_services_state svDetailBFails [fieldNames, goodRowB, malformedRow] =
      { restore_services_state svDetailBFails [fieldNames, goodRowB] with ok := false } :=
  c1_amended svDetailBFails fieldNames [goodRowB] [] malformedRow
    (.badValue "min_instances" (some "two"))
    (by
      intro row hrow
      rcases List.mem_singleton.mp hrow with rfl
      exact ⟨⟨"", "B", "MapServer", "STARTED", 1, 2⟩, rfl⟩)
    rfl

/-- C2: a service whose folder is in the exclusion set {Hosted, System,
Utilities} never gets a snapshot row from save, is never targeted by any
start/stop/edit call of stop-all-but-one, and is never targeted by any
mutating call of restore — even when a snapshot row names it. -/
theorem c2_exclusion (sv : Server) (keep : String) (contents : List CsvRow)
    (s : ServiceIdentity) (hs : s.folder ∈ excluded_folders) :
    (∀ row ∈ (save_services_state sv).2, row.head? ≠ some s.folder) ∧
    (∀ a ∈ (stop_all_except_one sv keep).acts, a.target ≠ s) ∧
    (∀ a ∈ (restore_services_state sv contents).acts, a.target ≠ s) := by
  refine ⟨?_, ?_, ?_⟩
  · intro row hrow
    rw [save_rows_eq] at hrow
    obtain ⟨t, ht, hproj⟩ := List.mem_filterMap.mp hrow
    by_cases hx : t.folder ∈ excluded_folders
    · simp [saveProj, if_pos hx] at hproj
    · simp only [saveProj, if_neg hx, Option.map_eq_some'] at hproj
      obtain ⟨d, _, hrow'⟩ := hproj
      rw [← hrow']
      simp only [saveRow, List.head?_cons, ne_eq, Option.some.injEq]
      intro heq
      rw [heq] at hx
      exact hx hs
  · intro a ha
    have htar : a.target.folder ∉ excluded_folders := by
      revert a ha
      unfold stop_all_except_one
      by_cases h : (get_services sv).isEmpty
      · simp [h]
      · simp only [if_neg h]
        have := stopFold_acts_targets sv keep (get_services sv) false [] [] (by simp)
        rcases hf : (get_services sv).foldl (stopStep sv keep) (false, [], []) with ⟨found, acts, log⟩
        rw [hf] at this
        cases found
        · simpa using this
        · simpa using this
    intro heq
    rw [heq] at htar
    exact htar hs
  · intro a ha
    have htar : a.target.folder ∉ excluded_folders := by
      revert a ha
      cases contents with
      | nil => simp [restore_services_state, RestoreResult.acts]
      | cons header rows =>
          exact restoreLoop_targets sv header rows [] 0 0 (by simp)
    intro heq
    rw [heq] at htar
    exact htar hs

/-- C2, witness at a concrete server and snapshot naming the excluded
service `Hosted/X.FeatureServer`. -/
theorem c2_exclusion_witness :
    (⟨"Hosted", "X", "FeatureServer"⟩ : ServiceIdentity).folder ∈ excluded_folders ∧
    ((∀ row ∈ (save_services_state svExample).2, row.head? ≠ some "Hosted") ∧
     (∀ a ∈ (stop_all_except_one svExample "Parcels").acts,
        a.target ≠ (⟨"Hosted", "X", "FeatureServer"⟩ : ServiceIdentity)) ∧
     (∀ a ∈ (restore_services_state svExample [fieldNames, hostedRow]).acts,
        a.target ≠ (⟨"Hosted", "X", "FeatureServer"⟩ : ServiceIdentity))) :=
  ⟨by decide,
   c2_exclusion svExample "Parcels" [fieldNames, hostedRow]
     ⟨"Hosted", "X", "FeatureServer"⟩ (by decide)⟩

/-- C3, counterexample.  On a server whose only service is
`Hosted/K.MapServer`, the keeper name `K` matches a discovered service's
name, yet stop-all-but-one still returns the aggregate failure (the
match is only looked for among non-excluded services) — refuting the
claimed "if and only if no discovered service's name matched". -/
theorem c3_counterexample :
    (stop_all_except_one svKeeperHosted "K").ok = false ∧
    ∃ s ∈ get_services svKeeperHosted, s.name = "K" :=
  ⟨by decide, ⟨⟨"Hosted", "K", "MapServer"⟩, by decide, rfl⟩⟩

/-- C3, amended.  The workflow returns an aggregate failure if and only
if no *non-excluded* discovered service's name matched the keeper's name
(in particular also when enumeration yields nothing at all); and the
aggregate result is unchanged under arbitrary replacement of the
detail/edit/start/stop oracles, i.e. every individual start, stop,
detail-fetch or instance-bounds failure is soft and never causes the
workflow's overall result to be failure. -/
theorem c3_amended (sv : Server) (keep : String)
    (dt : ServiceIdentity → Option ConfigRecord)
    (ed : ServiceIdentity → ConfigRecord → Bool) (st sp : ServiceIdentity → Bool) :
    ((stop_all_except_one sv keep).ok = true ↔
      ∃ s ∈ get_services sv, s.folder ∉ excluded_folders ∧ s.name = keep) ∧
    (stop_all_except_one (setOracles sv dt ed st sp) keep).ok =
      (stop_all_except_one sv keep).ok :=
  ⟨stop_ok_iff sv keep, stop_ok_oracle_indep sv dt ed st sp keep⟩

/-- C3, witness for the amended claim at a concrete server, keeper and
all-failing replacement oracles. -/
theorem c3_amended_witness :
    ((stop_all_except_one svExample "Parcels").ok = true ↔
      ∃ s ∈ get_services svExample, s.folder ∉ excluded_folders ∧ s.name = "Parcels") ∧
    (stop_all_except_one
        (setOracles svExample (fun _ => none) (fun _ _ => false) (fun _ => false) (fun _ => false))
        "Parcels").ok =
      (stop_all_except_one svExample "Parcels").ok :=
  c3_amended svExample "Parcels" (fun _ => none) (fun _ _ => false) (fun _ => false) (fun _ => false)

/-- C4: when the initial GET succeeds, the edit POST of
`update_service_instances` sends exactly the fetched record with
`minInstancesPerNode`/`maxInstancesPerNode` overwritten to the requested
bounds and the four read-only fields `status`, `configuredState`,
`realTimeState`, `extensions` stripped; every other field is retained
unchanged. -/
theorem c4_edit_payload (sv : Server) (id : ServiceIdentity) (d : ConfigRecord)
    (mn mx : Int) (hd : sv.details id = some d) :
    update_service_instances sv id mn mx =
      (sv.editOk id (buildEditPayload d mn mx), [.edit id (buildEditPayload d mn mx)]) ∧
    dget (buildEditPayload d mn mx) "status" = none ∧
    dget (buildEditPayload d mn mx) "configuredState" = none ∧
    dget (buildEditPayload d mn mx) "realTimeState" = none ∧
    dget (buildEditPayload d mn mx) "extensions" = none ∧
    dget (buildEditPayload d mn mx) "minInstancesPerNode" = some (.int mn) ∧
    dget (buildEditPayload d mn mx) "maxInstancesPerNode" = some (.int mx) ∧
    (∀ k, k ∉ readonly_props → k ≠ "minInstancesPerNode" → k ≠ "maxInstancesPerNode" →
      dget (buildEditPayload d mn mx) k = dget d k) := by
  have hpayload : buildEditPayload d mn mx =
      dpop (dpop (dpop (dpop
        (dset (dset d "minInstancesPerNode" (.int mn)) "maxInstancesPerNode" (.int mx))
        "status") "configuredState") "realTimeState") "extensions" := rfl
  refine ⟨by simp [update_service_instances, hd], ?_, ?_, ?_, ?_, ?_, ?_, ?_⟩
  · rw [hpayload, dget_dpop_ne _ _ _ (by decide), dget_dpop_ne _ _ _ (by decide),
      dget_dpop_ne _ _ _ (by decide), dget_dpop_self]
  · rw [hpayload, dget_dpop_ne _ _ _ (by decide), dget_dpop_ne _ _ _ (by decide),
      dget_dpop_self]
  · rw [hpayload, dget_dpop_ne _ _ _ (by decide), dget_dpop_self]
  · rw [hpayload, dget_dpop_self]
  · rw [hpayload, dget_dpop_ne _ _ _ (by decide), dget_dpop_ne _ _ _ (by decide),
      dget_dpop_ne _ _ _ (by decide), dget_dpop_ne _ _ _ (by decide),
      dget_dset_ne _ _ _ _ (by decide), dget_dset_self]
  · rw [hpayload, dget_dpop_ne _ _ _ (by decide), dget_dpop_ne _ _ _ (by decide),
      dget_dpop_ne _ _ _ (by decide), dget_dpop_ne _ _ _ (by decide), dget_dset_self]
  · intro k hk hkmin hkmax
    have hk4 : k ≠ "status" ∧ k ≠ "configuredState" ∧ k ≠ "realTimeState" ∧
        k ≠ "extensions" := by
      simp only [readonly_props, List.mem_cons, List.not_mem_nil, or_false] at hk
      push_neg at hk
      exact ⟨hk.1, hk.2.1, hk.2.2.1, hk.2.2.2⟩
    rw [hpayload, dget_dpop_ne _ _ _ hk4.2.2.2, dget_dpop_ne _ _ _ hk4.2.2.1,
      dget_dpop_ne _ _ _ hk4.2.1, dget_dpop_ne _ _ _ hk4.1,
      dget_dset_ne _ _ _ _ hkmax, dget_dset_ne _ _ _ _ hkmin]

/-- C4, witness at the concrete example service and document. -/
theorem c4_edit_payload_witness :
    svExample.details ⟨"", "Parcels", "MapServer"⟩ = some parcelsDoc ∧
    (update_service_instances svExample ⟨"", "Parcels", "MapServer"⟩ 1 1 =
      (svExample.editOk ⟨"", "Parcels", "MapServer"⟩ (buildEditPayload parcelsDoc 1 1),
       [.edit ⟨"", "Parcels", "MapServer"⟩ (buildEditPayload parcelsDoc 1 1)]) ∧
     dget (buildEditPayload parcelsDoc 1 1) "status" = none ∧
     dget (buildEditPayload parcelsDoc 1 1) "configuredState" = none ∧
     dget (buildEditPayload parcelsDoc 1 1) "realTimeState" = none ∧
     dget (buildEditPayload parcelsDoc 1 1) "extensions" = none ∧
     dget (buildEditPayload parcelsDoc 1 1) "minInstancesPerNode" = some (.int 1) ∧
     dget (buildEditPayload parcelsDoc 1 1) "maxInstancesPerNode" = some (.int 1) ∧
     (∀ k, k ∉ readonly_props → k ≠ "minInstancesPerNode" → k ≠ "maxInstancesPerNode" →
       dget (buildEditPayload parcelsDoc 1 1) k = dget parcelsDoc k)) :=
  ⟨rfl, c4_edit_payload svExample ⟨"", "Parcels", "MapServer"⟩ parcelsDoc 1 1 rfl⟩

/-- C5: whenever the enumeration yields at least one service, save
reports overall success — no matter how many per-service detail fetches
fail — and every row actually written comes from a non-excluded service
whose single detail fetch succeeded, so a service whose fetch failed has
no row and the batch is never aborted. -/
theorem c5_save_soft_failures (sv : Server) (h : get_services sv ≠ []) :
    (save_services_state sv).1 = true ∧
    ∀ row ∈ (save_services_state sv).2,
      ∃ s ∈ get_services sv, s.folder ∉ excluded_folders ∧
        ∃ d, sv.details s = some d ∧ row = saveRow s d := by
  refine ⟨(save_ok_iff sv).mpr h, ?_⟩
  intro row hrow
  rw [save_rows_eq] at hrow
  obtain ⟨t, ht, hproj⟩ := List.mem_filterMap.mp hrow
  by_cases hx : t.folder ∈ excluded_folders
  · simp [saveProj, if_pos hx] at hproj
  · simp only [saveProj, if_neg hx, Option.map_eq_some'] at hproj
    obtain ⟨d, hd, hrow'⟩ := hproj
    exact ⟨t, ht, hx, d, hd, hrow'.symm⟩

/-- C5, witness at a concrete server where service `B`'s detail fetch
fails: save still succeeds and only `A`'s row is written. -/
theorem c5_save_soft_failures_witness :
    get_services svDetailBFails ≠ [] ∧
    ((save_services_state svDetailBFails).1 = true ∧
     ∀ row ∈ (save_services_state svDetailBFails).2,
       ∃ s ∈ get_services svDetailBFails, s.folder ∉ excluded_folders ∧
         ∃ d, svDetailBFails.details s = some d ∧ row = saveRow s d) :=
  ⟨by decide, c5_save_soft_failures svDetailBFails (by decide)⟩

/-- C6: encoding a sequence of snapshot records to the tabular form
(header row plus one row per record) and decoding it back yields exactly
the same records, for any records with non-negative bounds and
min ≤ max. -/
theorem c6_roundtrip (rs : List SnapshotRecord)
    (h : ∀ r ∈ rs, 0 ≤ r.min_instances ∧ 0 ≤ r.max_instances ∧
      r.min_instances ≤ r.max_instances) :
    decodeSnapshot (encodeSnapshot rs) = rs.map Except.ok := by
  simp only [decodeSnapshot, encodeSnapshot, List.map_map]
  refine List.map_congr_left ?_
  intro r hr
  exact parseSnapshotRow_recordToRow r (h r hr).1 (h r hr).2.1

/-- C6, witness at two concrete records. -/
theorem c6_roundtrip_witness :
    (∀ r ∈ [(⟨"", "Parcels", "MapServer", "STARTED", 2, 4⟩ : SnapshotRecord),
            ⟨"Ops", "X", "FeatureServer", "STOPPED", 0, 5⟩],
      0 ≤ r.min_instances ∧ 0 ≤ r.max_instances ∧ r.min_instances ≤ r.max_instances) ∧
    decodeSnapshot (encodeSnapshot
        [⟨"", "Parcels", "MapServer", "STARTED", 2, 4⟩,
         ⟨"Ops", "X", "FeatureServer", "STOPPED", 0, 5⟩]) =
      [.ok ⟨"", "Parcels", "MapServer", "STARTED", 2, 4⟩,
       .ok ⟨"Ops", "X", "FeatureServer", "STOPPED", 0, 5⟩] :=
  ⟨by decide,
   c6_roundtrip
     [⟨"", "Parcels", "MapServer", "STARTED", 2, 4⟩,
      ⟨"Ops", "X", "FeatureServer", "STOPPED", 0, 5⟩] (by decide)⟩

/-- C7: save writes exactly one row per non-excluded service whose
detail fetch succeeds, that row being the projection of the fetched
record (with `configuredState` defaulted to STOPPED and both instance
bounds defaulted to 1 when absent); on the specification's example
server the snapshot is exactly the single row
`,Parcels,MapServer,STARTED,2,4`. -/
theorem c7_save_projection :
    (∀ sv : Server, (save_services_state sv).2 = (get_services sv).filterMap (saveProj sv)) ∧
    (∀ (s : ServiceIdentity) (d : ConfigRecord),
      dget d "configuredState" = none → dget d "minInstancesPerNode" = none →
      dget d "maxInstancesPerNode" = none →
      saveRow s d = [s.folder, s.name, s.type, "STOPPED", "1", "1"]) ∧
    save_services_state svExample =
      (true, [["", "Parcels", "MapServer", "STARTED", "2", "4"]]) ∧
    String.intercalate "," ["", "Parcels", "MapServer", "STARTED", "2", "4"] =
      ",Parcels,MapServer,STARTED,2,4" := by
  refine ⟨save_rows_eq, ?_, by decide, by decide⟩
  intro s d h1 h2 h3
  simp only [saveRow, h1, h2, h3, Option.getD_none, jstr]
  rfl

/-- C7, witness: the example evaluation, and the defaulting at a record
missing all three optional fields. -/
theorem c7_save_projection_witness :
    save_services_state svExample =
      (true, [["", "Parcels", "MapServer", "STARTED", "2", "4"]]) ∧
    saveRow ⟨"", "Empty", "MapServer"⟩ [] =
      ["", "Empty", "MapServer", "STOPPED", "1", "1"] :=
  ⟨c7_save_projection.2.2.1, c7_save_projection.2.1 ⟨"", "Empty", "MapServer"⟩ [] rfl rfl rfl⟩

/-- C8: `get_services` returns every service the server's responses
report, with no exclusion filtering: all root-folder services first
(tagged with the empty folder), then, for each child folder in
server-reported order, that folder's services tagged with the folder
name; and it never descends more than one level — its result is
unchanged when the child-folder listings' own `folders` lists are
removed. -/
theorem c8_enumeration (sv : Server) :
    get_services sv =
      rootServicesOf sv ++ (foldersOf sv).flatMap (folderServicesOf sv) ∧
    get_services (stripSubFolders sv) = get_services sv :=
  ⟨get_services_eq sv, get_services_stripSubFolders sv⟩

/-- C8, witness at the concrete example server (whose `Hosted` folder
is listed, unfiltered). -/
theorem c8_enumeration_witness :
    get_services svExample =
      rootServicesOf svExample ++
        (foldersOf svExample).flatMap (folderServicesOf svExample) ∧
    get_services (stripSubFolders svExample) = get_services svExample :=
  c8_enumeration svExample

/-- C9: when the initial GET of the current configuration fails,
`update_service_instances` returns failure and issues no edit POST (no
mutating call at all), for every identity and bounds. -/
theorem c9_no_edit_without_get (sv : Server) (id : ServiceIdentity) (mn mx : Int)
    (h : sv.details id = none) :
    update_service_instances sv id mn mx = (false, []) := by
  simp [update_service_instances, h]

/-- C9, witness at a service whose detail GET fails. -/
theorem c9_no_edit_without_get_witness :
    svExample.details ⟨"", "Nope", "MapServer"⟩ = none ∧
    update_service_instances svExample ⟨"", "Nope", "MapServer"⟩ 2 3 = (false, []) :=
  ⟨rfl, c9_no_edit_without_get svExample ⟨"", "Nope", "MapServer"⟩ 2 3 rfl⟩

/-- C10: when no non-excluded discovered service matches the keeper's
name (and discovery yielded something), stop-all-but-one still issues a
stop to every non-excluded discovered service, in discovery order, and
only then reports the aggregate failure — the keeper-not-found check
happens after the full pass, so it prevents no sibling stop. -/
theorem c10_full_pass_before_failure (sv : Server) (keep : String)
    (hne : get_services sv ≠ [])
    (hnomatch : ∀ s ∈ get_services sv, s.folder ∉ excluded_folders → s.name ≠ keep) :
    (stop_all_except_one sv keep).ok = false ∧
    (stop_all_except_one sv keep).acts =
      ((get_services sv).filter (fun s => decide (s.folder ∉ excluded_folders))).map
        Action.stop := by
  have hnotex : ¬ ∃ s ∈ get_services sv, s.folder ∉ excluded_folders ∧ s.name = keep := by
    rintro ⟨s, hsm, hnx, hk⟩
    exact hnomatch s hsm hnx hk
  have hok : (stop_all_except_one sv keep).ok = false := by
    have := stop_ok_iff sv keep
    cases hc : (stop_all_except_one sv keep).ok
    · rfl
    · rw [hc] at this
      exact absurd (this.mp rfl) hnotex
  refine ⟨hok, ?_⟩
  unfold stop_all_except_one
  have hemp : ¬ (get_services sv).isEmpty = true := by
    simpa [List.isEmpty_iff] using hne
  simp only [if_neg hemp]
  have hacts := stopFold_acts_nomatch sv keep (get_services sv) hnomatch false [] []
  rcases hf : (get_services sv).foldl (stopStep sv keep) (false, [], []) with ⟨found, acts, log⟩
  rw [hf] at hacts
  cases found
  · simpa using hacts
  · simpa using hacts

/-- C10, witness: a server with two root services and a keeper name
matching neither — both are stopped, then the workflow fails. -/
theorem c10_full_pass_before_failure_witness :
    get_services svDetailBFails ≠ [] ∧
    ((stop_all_except_one svDetailBFails "Z").ok = false ∧
     (stop_all_except_one svDetailBFails "Z").acts =
       ((get_services svDetailBFails).filter
         (fun s => decide (s.folder ∉ excluded_folders))).map Action.stop) :=
  ⟨by decide, c10_full_pass_before_failure svDetailBFails "Z" (by decide) (by decide)⟩
